import Mathlib

/-
Verification of the FullVector repository (src/vector.h): a generic, contiguous,
dynamically growable sequence container built on a raw-memory layer.

Shallow embedding. The C++ class `Vector<T>` owns a `RawMemory<T>` block (a base
pointer plus a capacity) and a live-element count `size_`; the elements at
positions [0, size_) are constructed and live, the slots [size_, capacity) are
uninitialized raw memory. We model the observable state as a structure holding
the list of live elements (the constructed range, in order) together with the
capacity of the owned block; `size_` is the length of that list, and the
uninitialized tail is exactly the capacity minus that length. Each member
function of the source becomes a Lean function on this state, translated
branch by branch from src/vector.h. Element types whose constructors can fail
are modelled separately with Option-valued construction and copy steps, with an
explicit account of which raw-storage slots get constructed and destroyed, so
that the exception-safety clauses of the spec can be checked.
-/

set_option autoImplicit false

namespace FV

universe u

variable {α : Type}

/-- Observable state of `Vector<T>` from src/vector.h: `elems` is the list of live
elements stored at positions [0, size_) of the owned `RawMemory` block, and `cap`
is `data_.Capacity()`.  `size_` is `elems.length`. -/
structure Vector (α : Type) where
  elems : List α
  cap : Nat
deriving Repr, DecidableEq

/-- Size(): returns size_. -/
def Vector.Size (v : Vector α) : Nat :=
  v.elems.length

/-- Capacity(): returns data_.Capacity(). -/
def Vector.Capacity (v : Vector α) : Nat :=
  v.cap

/-- Vector(): the default constructor leaves data_ null with capacity 0 and size_ 0. -/
def Vector.empty : Vector α :=
  ⟨[], 0⟩

/-- Vector(size_t size): allocates a block for `size` elements and value-constructs
them with the default constructor of T; `d` stands for the value the default
constructor of T produces. -/
def Vector.sizedCtor (n : Nat) (d : α) : Vector α :=
  ⟨List.replicate n d, n⟩

/-- Vector(const Vector&): allocates a block sized to the source's size_ (not its
capacity) and copy-constructs the source's elements into it. -/
def Vector.copyCtor (other : Vector α) : Vector α :=
  ⟨other.elems, other.elems.length⟩

/-- Swap(Vector&): exchanges data_ (buffer and capacity) and size_ of the two
containers.  Returns the pair (this after the call, other after the call). -/
def Vector.Swap (a b : Vector α) : Vector α × Vector α :=
  (b, a)

/-- Vector(Vector&&): the move constructor default-initialises this (null block,
size 0) and then calls Swap(other).  Returns (the constructed vector, other
after the call). -/
def Vector.moveCtor (other : Vector α) : Vector α × Vector α :=
  Vector.Swap Vector.empty other

/-- operator=(Vector&&): the move-assignment operator calls Swap(rhs).  Returns
(this after the call, rhs after the call). -/
def Vector.moveAssign (a rhs : Vector α) : Vector α × Vector α :=
  Vector.Swap a rhs

/-- operator=(const Vector&), src/vector.h lines 140-166.  If rhs.size_ exceeds
the capacity, build a full temporary copy and swap it in.  Otherwise reuse the
existing storage: when size_ < rhs.size_, uninitialized_copy_n constructs the
trailing elements rhs[size_, rhs.size_) at data_ + size_ and std::copy then
assigns rhs[0, size_) over the old ones; when size_ > rhs.size_, destroy_n
destroys the trailing elements data_[rhs.size_, size_) and std::copy assigns
rhs[0, rhs.size_); when size_ == rhs.size_, neither branch runs and no element
is assigned.  Finally size_ = rhs.size_. -/
def Vector.copyAssign (a rhs : Vector α) : Vector α :=
  if rhs.elems.length > a.cap then
    Vector.copyCtor rhs
  else
    if a.elems.length < rhs.elems.length then
      ⟨rhs.elems.take a.elems.length ++ rhs.elems.drop a.elems.length, a.cap⟩
    else if a.elems.length > rhs.elems.length then
      ⟨rhs.elems.take rhs.elems.length, a.cap⟩
    else
      ⟨a.elems, a.cap⟩

/-- Reserve(size_t): if the requested capacity does not exceed the current one,
do nothing.  Otherwise allocate a new block of exactly that capacity, relocate
all live elements into it (move or copy per the constexpr policy; both preserve
the values), destroy the old elements and swap in the new block. -/
def Vector.Reserve (v : Vector α) (new_capacity : Nat) : Vector α :=
  if new_capacity ≤ v.cap then v
  else ⟨v.elems, new_capacity⟩

/-- Resize(size_t): first Reserve(new_size); then value-construct the slots
[size_, new_size) when growing (d stands for the default-constructed value of T)
or destroy the elements [new_size, size_) when shrinking; finally size_ = new_size. -/
def Vector.Resize (v : Vector α) (new_size : Nat) (d : α) : Vector α :=
  let w := v.Reserve new_size
  if w.elems.length < new_size then
    ⟨w.elems ++ List.replicate (new_size - w.elems.length) d, w.cap⟩
  else if w.elems.length > new_size then
    ⟨w.elems.take new_size, w.cap⟩
  else
    w

/-- EmplaceBack(Args&&...), success path, src/vector.h lines 308-339.  With spare
capacity the new element is constructed in place at data_ + size_; otherwise a
new block of capacity (size_ == 0 ? 1 : size_ * 2) is allocated, the new element
is constructed first at new_data + size_, the old elements are relocated to
[0, size_), the old ones destroyed and the blocks swapped.  Either way size_
increments and the element lands at the end. -/
def Vector.EmplaceBack (v : Vector α) (x : α) : Vector α :=
  if v.cap > v.elems.length then
    ⟨v.elems ++ [x], v.cap⟩
  else
    ⟨v.elems ++ [x], if v.elems.length = 0 then 1 else v.elems.length * 2⟩

/-- PushBack(Type&&): forwards to EmplaceBack. -/
def Vector.PushBack (v : Vector α) (x : α) : Vector α :=
  v.EmplaceBack x

/-- PopBack(): destroys the element at data_ + size_ - 1 and decrements size_
(undefined behaviour on an empty vector is not modelled; on the empty list the
model is the identity). -/
def Vector.PopBack (v : Vector α) : Vector α :=
  ⟨v.elems.dropLast, v.cap⟩

/-- BigCapacity(pos, ...), the spare-capacity branch of Emplace, src/vector.h
lines 432-456: when pos is the end it forwards to EmplaceBack; otherwise it
builds the new value in a temporary, move-constructs the last element into the
slot at data_ + size_, shifts [pos, end-1) one slot right with move_backward and
move-assigns the temporary into the vacated slot.  The resulting live range is
elems[0, offset), then the new value, then elems[offset, size_). -/
def Vector.BigCapacity (v : Vector α) (offset : Nat) (x : α) : Vector α :=
  if offset = v.elems.length then
    v.EmplaceBack x
  else
    ⟨v.elems.take offset ++ x :: v.elems.drop offset, v.cap⟩

/-- CompletelyFilled(pos, ...), success path, src/vector.h lines 458-516: a new
block of capacity (size_ == 0 ? 1 : size_ * 2) is allocated, the elements
[0, offset) are relocated to the same positions, the new element is constructed
at offset, and (when size_ > offset) the elements [offset, size_) are relocated
to [offset+1, size_+1); then the old elements are destroyed, the blocks swapped
and size_ incremented. -/
def Vector.CompletelyFilled (v : Vector α) (offset : Nat) (x : α) : Vector α :=
  ⟨v.elems.take offset ++ x :: v.elems.drop offset,
   if v.elems.length = 0 then 1 else v.elems.length * 2⟩

/-- Emplace(pos, ...), src/vector.h lines 375-386: records offset = pos - begin(),
dispatches on whether spare capacity exists, and returns begin() + offset, i.e.
the position at index offset of the post-call container.  The result pair is
(the container after the call, the index the returned iterator denotes). -/
def Vector.Emplace (v : Vector α) (pos : Nat) (x : α) : Vector α × Nat :=
  if v.cap > v.elems.length then
    (v.BigCapacity pos x, pos)
  else
    (v.CompletelyFilled pos x, pos)

/-- Insert(pos, value): a single-value convenience built on Emplace. -/
def Vector.Insert (v : Vector α) (pos : Nat) (x : α) : Vector α × Nat :=
  v.Emplace pos x

/-- Erase(pos), src/vector.h lines 388-401: at the end position it is a no-op
returning end(); otherwise [pos+1, end) is shifted left one slot by move
assignment, the now-duplicated last slot destroyed and size_ decremented; the
returned iterator denotes index pos of the post-call container. -/
def Vector.Erase (v : Vector α) (pos : Nat) : Vector α × Nat :=
  if pos = v.elems.length then
    (v, v.elems.length)
  else
    (⟨v.elems.take pos ++ v.elems.drop (pos + 1), v.cap⟩, pos)

/-- operator[](size_t): the element at the given index of the live range.  The
code asserts index < size_ and out-of-range access is undefined behaviour; the
model returns the default d outside the live range. -/
def Vector.opIndex (v : Vector α) (i : Nat) (d : α) : α :=
  v.elems.getD i d

/-- The representation invariant of Vector: size_ never exceeds the capacity of
the owned block (the live elements occupy [0, size_) and the slots
[size_, capacity) stay uninitialized, which the model keeps by construction). -/
def Vector.WF (v : Vector α) : Prop :=
  v.elems.length ≤ v.cap

instance (v : Vector α) : Decidable v.WF :=
  Nat.decLe v.elems.length v.cap

/-
Fallible element operations.  The exception-safety clauses of the spec concern
element types whose copy constructor (and the construction of the new element)
can throw.  A fallible constructor step is an Option: none models a throw.  The
relocation policy picks the move branch only for types whose moves cannot
throw, so every failure happens on the copy branch.
-/

/-- Models std::uninitialized_copy_n applied to a list of source elements with a
fallible copy constructor: .ok gives the list of constructed copies; .error i
reports that the copy of the element at relative index i threw.  Per the
standard, on a throw the i elements the algorithm had already constructed are
destroyed again before the exception leaves it. -/
def uninitializedCopyTrace (copy : α → Option α) : List α → Except Nat (List α)
  | [] => .ok []
  | a :: as =>
    match copy a with
    | none => .error 0
    | some b =>
      match uninitializedCopyTrace copy as with
      | .error i => .error (i + 1)
      | .ok bs => .ok (b :: bs)

/-- Account of a migration into fresh storage that was abandoned by a throw:
which slots of the new block ever had an element constructed in them (in
order of construction, repeats possible), which slots a destructor was invoked
on (in order of destruction), whether the new block itself was released, and
the state of the original container once the exception has propagated. -/
structure MigrationFailure (α : Type) where
  constructed : List Nat
  destroyed : List Nat
  newBlockReleased : Bool
  old : Vector α
deriving Repr, DecidableEq

/-- CompletelyFilled(pos, ...), src/vector.h lines 458-516, on the copy branch
(a type whose copy can throw), with the construction and destruction of
new-block slots accounted for.  newElem is the construction of the new element
at slot offset (none models a throw); copy is the element copy constructor.
Step 1 (lines 475-482): uninitialized_copy_n copies elems[0, offset) to slots
[0, offset); on a throw at relative index i the algorithm itself destroys the
slots [0, i) it constructed, and the catch block then calls
destroy_n(new_data + offset, 1) on slot offset.  Step 2 (line 485): placement
new constructs the new element at slot offset, with no try/catch around it.
Step 3 (lines 486-511, when size_ > offset): uninitialized_copy_n copies
elems[offset, size_) to slots [offset+1, size_+1); on a throw at relative index
j it destroys the slots [offset+1, offset+1+j) it constructed, and the catch
block calls destroy_n(new_data.GetAddress(), offset + 1).  On success the old
elements are destroyed, the blocks swapped and size_ incremented.  In every
failure case the exception propagates, the new block is released on unwind and
data_ and size_ are untouched. -/
def Vector.CompletelyFilledCopy (v : Vector α) (offset : Nat) (newElem : Option α)
    (copy : α → Option α) : Except (MigrationFailure α) (Vector α) :=
  match uninitializedCopyTrace copy (v.elems.take offset) with
  | .error i =>
      .error { constructed := List.range i
               destroyed := List.range i ++ [offset]
               newBlockReleased := true
               old := v }
  | .ok pre =>
    match newElem with
    | none =>
        .error { constructed := List.range offset
                 destroyed := []
                 newBlockReleased := true
                 old := v }
    | some x =>
      if v.elems.length > offset then
        match uninitializedCopyTrace copy (v.elems.drop offset) with
        | .error j =>
            .error { constructed := List.range offset ++ [offset]
                       ++ (List.range j).map (fun k => offset + 1 + k)
                     destroyed := (List.range j).map (fun k => offset + 1 + k)
                       ++ List.range (offset + 1)
                     newBlockReleased := true
                     old := v }
        | .ok suf =>
            .ok ⟨pre ++ x :: suf, if v.elems.length = 0 then 1 else v.elems.length * 2⟩
      else
        .ok ⟨pre ++ [x], if v.elems.length = 0 then 1 else v.elems.length * 2⟩

/-- EmplaceBack(Args&&...), src/vector.h lines 308-339, with a fallible
construction of the new element (newElem, none models a throw) and a fallible
element copy constructor for the copy branch of the relocation policy
(nothrowMove selects the constexpr move branch).  On the fast path a throw of
the placement new at data_ + size_ changes nothing.  On the growth path the new
element is constructed first, at new_data + Size(), before any existing element
is touched: a throw there propagates, the new block is released on unwind and
data_ and size_ are untouched.  A throw during the copy relocation is cleaned
up by uninitialized_copy_n itself and also leaves the original container
untouched.  The error payload is the container as the caller observes it after
the failure. -/
def Vector.EmplaceBackFallible (v : Vector α) (newElem : Option α)
    (copy : α → Option α) (nothrowMove : Bool) : Except (Vector α) (Vector α) :=
  if v.cap > v.elems.length then
    match newElem with
    | none => .error v
    | some x => .ok ⟨v.elems ++ [x], v.cap⟩
  else
    match newElem with
    | none => .error v
    | some x =>
      if nothrowMove then
        .ok ⟨v.elems ++ [x], if v.elems.length = 0 then 1 else v.elems.length * 2⟩
      else
        match uninitializedCopyTrace copy v.elems with
        | .error _ => .error v
        | .ok copies =>
            .ok ⟨copies ++ [x], if v.elems.length = 0 then 1 else v.elems.length * 2⟩

/-- A sequence of appends: folds PushBack over a list of values. -/
def Vector.pushAll (v : Vector α) (xs : List α) : Vector α :=
  xs.foldl Vector.PushBack v

/- Helper lemmas. -/

theorem elems_EmplaceBack (v : Vector α) (x : α) :
    (v.EmplaceBack x).elems = v.elems ++ [x] := by
  unfold Vector.EmplaceBack
  split <;> rfl

theorem elems_PushBack (v : Vector α) (x : α) :
    (v.PushBack x).elems = v.elems ++ [x] :=
  elems_EmplaceBack v x

theorem elems_pushAll (v : Vector α) (xs : List α) :
    (v.pushAll xs).elems = v.elems ++ xs := by
  induction xs generalizing v with
  | nil => simp [Vector.pushAll]
  | cons a as ih =>
      show ((v.PushBack a).pushAll as).elems = v.elems ++ a :: as
      rw [ih, elems_PushBack]
      simp

theorem getD_append_cons (l t : List α) (x d : α) :
    (l ++ x :: t).getD l.length d = x := by
  induction l with
  | nil => rfl
  | cons a l ih => simpa using ih

theorem getD_insert_at (l : List α) (pos : Nat) (x d : α) (h : pos ≤ l.length) :
    (l.take pos ++ x :: l.drop pos).getD pos d = x := by
  have hl : (l.take pos).length = pos := by
    simp [List.length_take]
    omega
  have hmain := getD_append_cons (l.take pos) (l.drop pos) x d
  rwa [hl] at hmain

theorem cap_le_copyAssign (v rhs : Vector α) : v.cap ≤ (v.copyAssign rhs).cap := by
  unfold Vector.copyAssign Vector.copyCtor
  by_cases h1 : rhs.elems.length > v.cap
  · simp [h1]
    omega
  · simp [h1]
    by_cases h2 : v.elems.length < rhs.elems.length
    · simp [h2]
    · simp [h2]
      by_cases h3 : v.elems.length > rhs.elems.length <;> simp [h3]

theorem cap_le_Reserve (v : Vector α) (n : Nat) : v.cap ≤ (v.Reserve n).cap := by
  unfold Vector.Reserve
  split
  · exact Nat.le_refl _
  · next h =>
      show v.cap ≤ n
      omega

theorem cap_le_Resize (v : Vector α) (n : Nat) (d : α) : v.cap ≤ (v.Resize n d).cap := by
  have hR := cap_le_Reserve v n
  simp only [Vector.Resize]
  split
  · exact hR
  · split
    · exact hR
    · exact hR

theorem cap_le_EmplaceBack (v : Vector α) (x : α) : v.cap ≤ (v.EmplaceBack x).cap := by
  unfold Vector.EmplaceBack
  split
  · exact Nat.le_refl _
  · next h =>
      show v.cap ≤ if v.elems.length = 0 then 1 else v.elems.length * 2
      split <;> omega

theorem cap_Erase (v : Vector α) (pos : Nat) : ((v.Erase pos).1).cap = v.cap := by
  unfold Vector.Erase
  split <;> rfl

theorem cap_le_Emplace (v : Vector α) (pos : Nat) (x : α) :
    v.cap ≤ ((v.Emplace pos x).1).cap := by
  unfold Vector.Emplace Vector.BigCapacity Vector.CompletelyFilled
  split
  · split
    · exact cap_le_EmplaceBack v x
    · exact Nat.le_refl _
  · next h =>
      show v.cap ≤ if v.elems.length = 0 then 1 else v.elems.length * 2
      split <;> omega

theorem elems_Reserve (v : Vector α) (n : Nat) : (v.Reserve n).elems = v.elems := by
  unfold Vector.Reserve
  split <;> rfl

theorem le_cap_Reserve (v : Vector α) (n : Nat) : n ≤ (v.Reserve n).cap := by
  unfold Vector.Reserve
  split
  · next h => exact h
  · exact Nat.le_refl _

theorem WF_sizedCtor (n : Nat) (d : α) : (Vector.sizedCtor n d).WF := by
  show (List.replicate n d).length ≤ n
  simp

theorem WF_empty : (Vector.empty : Vector α).WF :=
  Nat.le_refl 0

theorem WF_copyCtor (v : Vector α) : (v.copyCtor).WF :=
  Nat.le_refl _

theorem WF_copyAssign (v rhs : Vector α) (hv : v.WF) : (v.copyAssign rhs).WF := by
  unfold Vector.copyAssign Vector.copyCtor Vector.WF at *
  by_cases h1 : rhs.elems.length > v.cap
  · simp [h1]
  · simp [h1]
    by_cases h2 : v.elems.length < rhs.elems.length
    · simp [h2, List.take_append_drop]
      omega
    · simp [h2]
      by_cases h3 : v.elems.length > rhs.elems.length
      · simp [h3, List.length_take]
        omega
      · simp [h3]
        exact hv

theorem WF_Reserve (v : Vector α) (n : Nat) (hv : v.WF) : (v.Reserve n).WF := by
  unfold Vector.Reserve
  split
  · exact hv
  · show v.elems.length ≤ n
    unfold Vector.WF at hv
    omega

theorem WF_Resize (v : Vector α) (n : Nat) (d : α) (hv : v.WF) : (v.Resize n d).WF := by
  have hR := WF_Reserve v n hv
  have hn := le_cap_Reserve v n
  unfold Vector.WF at hR ⊢
  simp only [Vector.Resize]
  split
  · show ((v.Reserve n).elems ++
      List.replicate (n - (v.Reserve n).elems.length) d).length ≤ (v.Reserve n).cap
    simp [List.length_append]
    omega
  · split
    · show ((v.Reserve n).elems.take n).length ≤ (v.Reserve n).cap
      simp [List.length_take]
      omega
    · exact hR

theorem WF_EmplaceBack (v : Vector α) (x : α) : (v.EmplaceBack x).WF := by
  unfold Vector.EmplaceBack
  split
  · next h =>
      show (v.elems ++ [x]).length ≤ v.cap
      simp
      omega
  · show (v.elems ++ [x]).length ≤ if v.elems.length = 0 then 1 else v.elems.length * 2
    simp
    split <;> omega

theorem WF_PopBack (v : Vector α) (hv : v.WF) : (v.PopBack).WF := by
  show v.elems.dropLast.length ≤ v.cap
  unfold Vector.WF at hv
  simp [List.length_dropLast]
  omega

theorem WF_Emplace (v : Vector α) (pos : Nat) (x : α) : ((v.Emplace pos x).1).WF := by
  unfold Vector.Emplace Vector.BigCapacity Vector.CompletelyFilled
  split
  · next h =>
      split
      · exact WF_EmplaceBack v x
      · show (v.elems.take pos ++ x :: v.elems.drop pos).length ≤ v.cap
        simp [List.length_take, List.length_drop]
        omega
  · show (v.elems.take pos ++ x :: v.elems.drop pos).length ≤
      if v.elems.length = 0 then 1 else v.elems.length * 2
    simp [List.length_take, List.length_drop]
    split <;> omega

theorem WF_Erase (v : Vector α) (pos : Nat) (hv : v.WF) : ((v.Erase pos).1).WF := by
  unfold Vector.Erase
  split
  · exact hv
  · show (v.elems.take pos ++ v.elems.drop (pos + 1)).length ≤ v.cap
    unfold Vector.WF at hv
    simp [List.length_take, List.length_drop]
    omega

/- Claim theorems. -/

/-- C1: evidence against the claim, read off the code.  Copy-assigning a
one-element source into a one-element destination of capacity 1 takes the
storage-reuse branch, but because size_ == rhs.size_ neither of the two copy
branches of operator= runs and no element is assigned: the destination still
holds its old element 1 although the source holds 2, so the overlapping prefix
is not assigned element-by-element in the case dst.size = src.size. -/
theorem copyAssign_equal_size_no_copy :
    Vector.copyAssign (⟨[1], 1⟩ : Vector Nat) ⟨[2], 1⟩ = ⟨[1], 1⟩ ∧
    (⟨[1], 1⟩ : Vector Nat).elems ≠ (⟨[2], 1⟩ : Vector Nat).elems :=
  ⟨rfl, by decide⟩

/-- C2: evidence against the claim, read off the code.  First conjunct: on a
full container [10, 20] (size = capacity = 2), Emplace at offset 1 whose
new-element construction throws leaves the copy already constructed in
new-storage slot 0 undestroyed (the placement new at line 485 has no try/catch),
so the destroyed slots ([]) are not exactly the constructed ones ([0]).  Second
conjunct: Emplace at offset 2 where the copy of element 20 throws makes the
catch block at line 480 call destroy_n(new_data + offset, 1): slot 2 is
destroyed although it was never constructed (constructed slots [0], destroyed
slots [0, 2]).  In both cases the old container is untouched and the new block
released, but the cleanup is not the claimed one. -/
theorem CompletelyFilledCopy_cleanup_mismatch :
    (Vector.CompletelyFilledCopy (⟨[10, 20], 2⟩ : Vector Nat) 1 none some =
      .error { constructed := [0], destroyed := [], newBlockReleased := true,
               old := ⟨[10, 20], 2⟩ }) ∧
    (Vector.CompletelyFilledCopy (⟨[10, 20], 2⟩ : Vector Nat) 2 (some 9)
        (fun x => if x = 20 then none else some x) =
      .error { constructed := [0], destroyed := [0, 2], newBlockReleased := true,
               old := ⟨[10, 20], 2⟩ }) :=
  ⟨rfl, rfl⟩

/-- C3 counterexample: move-assigning the one-element source [7] into the
non-empty destination [5] (capacity 2) swaps the two states, so the source is
left holding [5] with size 1 and capacity 2 — not size 0 and capacity 0 as the
claim states. -/
theorem moveAssign_source_not_emptied :
    (Vector.moveAssign (⟨[5], 2⟩ : Vector Nat) ⟨[7], 1⟩).2 = ⟨[5], 2⟩ ∧
    (Vector.moveAssign (⟨[5], 2⟩ : Vector Nat) ⟨[7], 1⟩).2.Size ≠ 0 ∧
    (Vector.moveAssign (⟨[5], 2⟩ : Vector Nat) ⟨[7], 1⟩).2.Capacity ≠ 0 :=
  ⟨rfl, by decide, by decide⟩

/-- C3 amended: move construction leaves the source with size 0 and capacity 0
and the destination holds exactly the elements the source held; move assignment
exchanges the complete states of the two containers, so the destination holds
the prior source's elements while the source is left with the prior
destination's state (size 0 and capacity 0 exactly when the destination was a
fresh default-constructed container).  Neither operation fails. -/
theorem move_semantics (other a rhs : Vector α) :
    Vector.moveCtor other = (other, (⟨[], 0⟩ : Vector α)) ∧
    (Vector.moveCtor other).2.Size = 0 ∧
    (Vector.moveCtor other).2.Capacity = 0 ∧
    Vector.moveAssign a rhs = (rhs, a) :=
  ⟨rfl, rfl, rfl, rfl⟩

/-- C4: if EmplaceBack takes the growth path (size = capacity) and the
construction of the new element fails, the call fails and the container the
caller observes afterwards is exactly the pre-call container — same size, same
capacity, same elements — because the new element is constructed into the new
block before any existing element is touched and only the still-unreferenced
new block is released on unwind. -/
theorem EmplaceBack_growth_strong (v : Vector α) (copy : α → Option α)
    (nothrowMove : Bool) (_h : v.Size = v.Capacity) :
    v.EmplaceBackFallible none copy nothrowMove = .error v := by
  unfold Vector.EmplaceBackFallible
  split <;> rfl

/-- C4 witness: the growth-path hypothesis holds for the full container [1, 2]
of capacity 2, and the failing EmplaceBack leaves it untouched. -/
theorem EmplaceBack_growth_strong_witness :
    (⟨[1, 2], 2⟩ : Vector Nat).Size = (⟨[1, 2], 2⟩ : Vector Nat).Capacity ∧
    (⟨[1, 2], 2⟩ : Vector Nat).EmplaceBackFallible none some false =
      .error ⟨[1, 2], 2⟩ :=
  ⟨by decide, EmplaceBack_growth_strong ⟨[1, 2], 2⟩ some false (by decide)⟩

/-- C5 counterexample: move assignment is implemented as Swap, so move-assigning
from a capacity-1 container into a capacity-5 container reduces the
destination's capacity from 5 to 1 — capacity is not non-decreasing across
every operation. -/
theorem moveAssign_capacity_decrease :
    (Vector.moveAssign (⟨[], 5⟩ : Vector Nat) ⟨[], 1⟩).1.Capacity <
      (⟨[], 5⟩ : Vector Nat).Capacity := by
  decide

/-- C5 amended: capacity is monotonically non-decreasing across every operation
except Swap and move assignment, which exchange the two containers' capacities
(and can therefore reduce one side's capacity); in particular copy assignment,
Reserve, Resize (including to a smaller size), PushBack, EmplaceBack, Emplace
and Insert never reduce capacity, and PopBack and Erase leave it unchanged. -/
theorem capacity_monotone (v rhs : Vector α) (x d : α) (n pos : Nat) :
    v.Capacity ≤ (v.copyAssign rhs).Capacity ∧
    v.Capacity ≤ (v.Reserve n).Capacity ∧
    v.Capacity ≤ (v.Resize n d).Capacity ∧
    v.Capacity ≤ (v.PushBack x).Capacity ∧
    v.Capacity ≤ (v.EmplaceBack x).Capacity ∧
    (v.PopBack).Capacity = v.Capacity ∧
    ((v.Erase pos).1).Capacity = v.Capacity ∧
    v.Capacity ≤ ((v.Emplace pos x).1).Capacity ∧
    v.Capacity ≤ ((v.Insert pos x).1).Capacity ∧
    (v.moveAssign rhs).1.Capacity = rhs.Capacity ∧
    (v.moveAssign rhs).2.Capacity = v.Capacity ∧
    (v.Swap rhs).1.Capacity = rhs.Capacity ∧
    (v.Swap rhs).2.Capacity = v.Capacity :=
  ⟨cap_le_copyAssign v rhs, cap_le_Reserve v n, cap_le_Resize v n d,
   cap_le_EmplaceBack v x, cap_le_EmplaceBack v x, rfl, cap_Erase v pos,
   cap_le_Emplace v pos x, cap_le_Emplace v pos x, rfl, rfl, rfl, rfl⟩

/-- C6: Reserve(n) with n at most the current capacity changes nothing
observable; with n greater than the current capacity it makes the capacity
exactly n while preserving the size and the values and order of all live
elements. -/
theorem Reserve_spec (v : Vector α) (n : Nat) :
    (n ≤ v.Capacity → v.Reserve n = v) ∧
    (v.Capacity < n →
      (v.Reserve n).Capacity = n ∧ (v.Reserve n).elems = v.elems ∧
      (v.Reserve n).Size = v.Size) := by
  constructor
  · intro h
    unfold Vector.Reserve
    simp [Vector.Capacity] at h
    simp [h]
  · intro h
    unfold Vector.Reserve
    simp [Vector.Capacity] at h
    rw [if_neg (by omega)]
    exact ⟨rfl, rfl, rfl⟩

/-- C6 witness: on the container [1, 2] of capacity 3, Reserve 2 is a no-op and
Reserve 5 yields capacity exactly 5 with the elements preserved. -/
theorem Reserve_spec_witness :
    ((2 : Nat) ≤ (⟨[1, 2], 3⟩ : Vector Nat).Capacity ∧
      (⟨[1, 2], 3⟩ : Vector Nat).Reserve 2 = ⟨[1, 2], 3⟩) ∧
    ((⟨[1, 2], 3⟩ : Vector Nat).Capacity < 5 ∧
      ((⟨[1, 2], 3⟩ : Vector Nat).Reserve 5).Capacity = 5 ∧
      ((⟨[1, 2], 3⟩ : Vector Nat).Reserve 5).elems = [1, 2]) :=
  ⟨⟨by decide, (Reserve_spec ⟨[1, 2], 3⟩ 2).1 (by decide)⟩,
   ⟨by decide, ((Reserve_spec ⟨[1, 2], 3⟩ 5).2 (by decide)).1,
    ((Reserve_spec ⟨[1, 2], 3⟩ 5).2 (by decide)).2.1⟩⟩

/-- C7: when an append or a positional insert reallocates because size =
capacity, the new capacity is 1 if the current size is 0 and 2 x size
otherwise; a successful Insert of x at position i into a full container holding
e0..e(n-1) yields e0..e(i-1), x, ei..e(n-1) with size n + 1. -/
theorem growth_factor_and_insert_full (v : Vector α) (x : α) (i : Nat)
    (hfull : v.Size = v.Capacity) :
    (v.EmplaceBack x).Capacity = (if v.Size = 0 then 1 else 2 * v.Size) ∧
    ((v.Emplace i x).1).Capacity = (if v.Size = 0 then 1 else 2 * v.Size) ∧
    (i ≤ v.Size →
      ((v.Insert i x).1).elems = v.elems.take i ++ x :: v.elems.drop i ∧
      ((v.Insert i x).1).Size = v.Size + 1) := by
  simp only [Vector.Size, Vector.Capacity] at hfull
  have hng : ¬ (v.cap > v.elems.length) := by omega
  refine ⟨?_, ?_, ?_⟩
  · show (v.EmplaceBack x).cap = _
    unfold Vector.EmplaceBack
    rw [if_neg hng]
    show (if v.elems.length = 0 then 1 else v.elems.length * 2) = _
    simp only [Vector.Size]
    by_cases h0 : v.elems.length = 0 <;> simp [h0, Nat.mul_comm]
  · show ((v.Emplace i x).1).cap = _
    unfold Vector.Emplace Vector.CompletelyFilled
    rw [if_neg hng]
    show (if v.elems.length = 0 then 1 else v.elems.length * 2) = _
    simp only [Vector.Size]
    by_cases h0 : v.elems.length = 0 <;> simp [h0, Nat.mul_comm]
  · intro hi
    simp only [Vector.Size] at hi
    unfold Vector.Insert Vector.Emplace Vector.CompletelyFilled
    rw [if_neg hng]
    refine ⟨rfl, ?_⟩
    show (v.elems.take i ++ x :: v.elems.drop i).length = v.elems.length + 1
    simp [List.length_take, List.length_drop]
    omega

/-- C7 witness: the full container [1, 2, 3] of capacity 3: appending and
inserting reallocate to capacity 6, and inserting 9 at position 1 yields
[1, 9, 2, 3] with size 4. -/
theorem growth_factor_witness :
    (⟨[1, 2, 3], 3⟩ : Vector Nat).Size = (⟨[1, 2, 3], 3⟩ : Vector Nat).Capacity ∧
    ((⟨[1, 2, 3], 3⟩ : Vector Nat).EmplaceBack 9).Capacity = 6 ∧
    (((⟨[1, 2, 3], 3⟩ : Vector Nat).Insert 1 9).1).elems = [1, 9, 2, 3] ∧
    (((⟨[1, 2, 3], 3⟩ : Vector Nat).Insert 1 9).1).Size = 4 :=
  ⟨by decide,
   (growth_factor_and_insert_full ⟨[1, 2, 3], 3⟩ 9 1 (by decide)).1,
   ((growth_factor_and_insert_full ⟨[1, 2, 3], 3⟩ 9 1 (by decide)).2.2 (by decide)).1,
   ((growth_factor_and_insert_full ⟨[1, 2, 3], 3⟩ 9 1 (by decide)).2.2 (by decide)).2⟩

/-- C8: for every finite sequence of appends performed on an initially empty
container, if all succeed then the final size equals the number of appends
performed and, for every index i below that size, operator[] returns the i-th
appended value — the elements read back in append order. -/
theorem append_sequence_readback (xs : List α) (d : α) :
    ((Vector.empty : Vector α).pushAll xs).Size = xs.length ∧
    ∀ i, i < xs.length →
      ((Vector.empty : Vector α).pushAll xs).opIndex i d = xs.getD i d := by
  have he : ((Vector.empty : Vector α).pushAll xs).elems = xs := by
    rw [elems_pushAll]
    rfl
  constructor
  · show ((Vector.empty : Vector α).pushAll xs).elems.length = xs.length
    rw [he]
  · intro i _
    show ((Vector.empty : Vector α).pushAll xs).elems.getD i d = xs.getD i d
    rw [he]

/-- C8 witness: appending 1, 2, 3 to an empty container gives size 3 and
reading back position 2 gives 3. -/
theorem append_sequence_readback_witness :
    ((Vector.empty : Vector Nat).pushAll [1, 2, 3]).Size = 3 ∧
    (2 : Nat) < 3 ∧
    ((Vector.empty : Vector Nat).pushAll [1, 2, 3]).opIndex 2 0 = 3 :=
  ⟨(append_sequence_readback [1, 2, 3] 0).1, by decide,
   (append_sequence_readback [1, 2, 3] 0).2 2 (by decide)⟩

/-- C10: for every valid position pos in [begin, end], Emplace — and therefore
Insert — returns an iterator denoting the index pos - begin() of the post-call
container, and that position holds the newly inserted element, including when
the insertion triggered reallocation. -/
theorem Emplace_returns_inserted (v : Vector α) (pos : Nat) (x d : α)
    (h : pos ≤ v.Size) :
    (v.Emplace pos x).2 = pos ∧
    ((v.Emplace pos x).1).opIndex pos d = x ∧
    (v.Insert pos x).2 = pos ∧
    ((v.Insert pos x).1).opIndex pos d = x := by
  simp only [Vector.Size] at h
  have hidx : (v.Emplace pos x).2 = pos := by
    unfold Vector.Emplace
    split <;> rfl
  have hmain : ((v.Emplace pos x).1).opIndex pos d = x := by
    unfold Vector.Emplace Vector.BigCapacity
    split
    · split
      · next hpos =>
          show (v.EmplaceBack x).elems.getD pos d = x
          rw [elems_EmplaceBack, hpos]
          exact getD_append_cons _ [] x d
      · show (v.elems.take pos ++ x :: v.elems.drop pos).getD pos d = x
        exact getD_insert_at v.elems pos x d h
    · show (v.elems.take pos ++ x :: v.elems.drop pos).getD pos d = x
      exact getD_insert_at v.elems pos x d h
  exact ⟨hidx, hmain, hidx, hmain⟩

/-- C10 witness: inserting 9 at position 1 of the full container [1, 2, 3]
(which reallocates) returns index 1, and position 1 of the result holds 9. -/
theorem Emplace_returns_inserted_witness :
    (1 : Nat) ≤ (⟨[1, 2, 3], 3⟩ : Vector Nat).Size ∧
    ((⟨[1, 2, 3], 3⟩ : Vector Nat).Emplace 1 9).2 = 1 ∧
    (((⟨[1, 2, 3], 3⟩ : Vector Nat).Emplace 1 9).1).opIndex 1 0 = 9 :=
  ⟨by decide, (Emplace_returns_inserted ⟨[1, 2, 3], 3⟩ 1 9 0 (by decide)).1,
   (Emplace_returns_inserted ⟨[1, 2, 3], 3⟩ 1 9 0 (by decide)).2.1⟩

/-- C9: every public operation of the container preserves the representation
invariant size ≤ capacity; the model keeps the elements at positions [0, size)
live and the slots [size, capacity) uninitialized by construction. -/
theorem operations_preserve_WF (v rhs : Vector α) (x d : α) (n pos : Nat)
    (hv : v.WF) (hrhs : rhs.WF) :
    (Vector.sizedCtor n d).WF ∧
    (Vector.empty : Vector α).WF ∧
    (v.copyCtor).WF ∧
    (v.moveCtor).1.WF ∧ (v.moveCtor).2.WF ∧
    (v.copyAssign rhs).WF ∧
    (v.moveAssign rhs).1.WF ∧ (v.moveAssign rhs).2.WF ∧
    (v.Swap rhs).1.WF ∧ (v.Swap rhs).2.WF ∧
    (v.Reserve n).WF ∧
    (v.Resize n d).WF ∧
    (v.PushBack x).WF ∧ (v.EmplaceBack x).WF ∧
    (v.PopBack).WF ∧
    ((v.Emplace pos x).1).WF ∧ ((v.Insert pos x).1).WF ∧
    ((v.Erase pos).1).WF :=
  ⟨WF_sizedCtor n d, WF_empty, WF_copyCtor v, hv, WF_empty,
   WF_copyAssign v rhs hv, hrhs, hv, hrhs, hv,
   WF_Reserve v n hv, WF_Resize v n d hv,
   WF_EmplaceBack v x, WF_EmplaceBack v x, WF_PopBack v hv,
   WF_Emplace v pos x, WF_Emplace v pos x, WF_Erase v pos hv⟩

/-- C9 witness: both hypothesised invariants hold for the concrete containers
[1] (capacity 2) and [2, 3] (capacity 2), and Resize and Emplace preserve
them. -/
theorem operations_preserve_WF_witness :
    (⟨[1], 2⟩ : Vector Nat).WF ∧ (⟨[2, 3], 2⟩ : Vector Nat).WF ∧
    ((⟨[1], 2⟩ : Vector Nat).Resize 5 0).WF ∧
    (((⟨[1], 2⟩ : Vector Nat).Emplace 1 7).1).WF := by
  have h := operations_preserve_WF (⟨[1], 2⟩ : Vector Nat) ⟨[2, 3], 2⟩ 7 0 5 1
    (by decide) (by decide)
  exact ⟨by decide, by decide,
    h.2.2.2.2.2.2.2.2.2.2.2.1,
    h.2.2.2.2.2.2.2.2.2.2.2.2.2.2.2.1⟩

end FV
